import Mathlib

/-!
Shallow embedding of the `detestable-me` core (src/src/supervillain.rs,
src/src/sidekick.rs, src/src/cipher.rs) and proofs of the spec claims.

Rust strings are Lean `String`s; `Option` models the optional sidekick;
fallible operations return `Option`/`Except` (a panic is `none`); the
observable effects on injected collaborators (weapon shots, henchman
commands, sidekick relays) are modelled as explicit traces/counters
returned by the operations; the random draw of `attack` is an explicit
parameter constrained to the range the code requests.
-/

namespace Evil

/-- Model of Rust `str::split_whitespace` on the character list of a string:
splits at runs of whitespace characters, yielding the maximal non-whitespace
runs in order and no empty tokens. `acc` holds the (reversed) characters of
the token currently being read. -/
def splitWsAux : List Char → List Char → List (List Char)
  | [], acc => if acc.isEmpty then [] else [acc.reverse]
  | c :: cs, acc =>
    if c.isWhitespace then
      if acc.isEmpty then splitWsAux cs []
      else acc.reverse :: splitWsAux cs []
    else splitWsAux cs (c :: acc)

/-- Rust `name.split_whitespace().collect::<Vec<_>>()`. -/
def split_whitespace (s : String) : List String :=
  (splitWsAux s.data []).map String.mk

/-- Rust `EvilError` (src/src/supervillain.rs lines 24-28). -/
inductive EvilError where
  | ParseError (purpose : String) (reason : String)
  deriving DecidableEq, Repr

/-- Behaviour of a sidekick as consumed by `SuperVillain`: the loyalty
answer of `agree` and the target list derived by `get_weak_targets` from a
gadget of type `G`. The message relay `tell` is observed through the trace
returned by `tell_plans`. -/
structure Sidekick (G : Type) where
  agreeAnswer : Bool
  getWeakTargetsFn : G → List String

/-- Sidekick loyalty query. -/
def Sidekick.agree {G : Type} (s : Sidekick G) : Bool :=
  s.agreeAnswer

/-- Sidekick weak-target derivation from a gadget. -/
def Sidekick.get_weak_targets {G : Type} (s : Sidekick G) (g : G) : List String :=
  s.getWeakTargetsFn g

/-- The production sidekick (src/src/sidekick.rs): owns a gadget. -/
structure ProdSidekick (G : Type) where
  gadget : G

/-- Production `Sidekick::agree` (src/src/sidekick.rs lines 17-19): always true. -/
def ProdSidekick.agree {G : Type} (_ : ProdSidekick G) : Bool :=
  true

/-- Production `Sidekick::get_weak_targets` (src/src/sidekick.rs lines 21-23):
always the empty vector, whatever the gadget. -/
def ProdSidekick.get_weak_targets {G H : Type} (_ : ProdSidekick G) (_ : H) : List String :=
  []

/-- The behaviour, as seen by `SuperVillain`, of a production sidekick. -/
def ProdSidekick.asSidekick {G : Type} (s : ProdSidekick G) : Sidekick G where
  agreeAnswer := s.agree
  getWeakTargetsFn := fun g => s.get_weak_targets g

/-- Rust `SuperVillain` (src/src/supervillain.rs lines 16-22), generic over
the gadget capability type `G` of its optional sidekick. -/
structure SuperVillain (G : Type) where
  first_name : String
  last_name : String
  sidekick : Option (Sidekick G)
  shared_key : String

/-- Rust `SuperVillain::default()` (derived `Default`): empty strings, no sidekick. -/
def SuperVillain.default (G : Type) : SuperVillain G where
  first_name := ""
  last_name := ""
  sidekick := none
  shared_key := ""

/-- `SuperVillain::full_name` (lines 49-51): `format!("{} {}", first, last)`. -/
def SuperVillain.full_name {G : Type} (v : SuperVillain G) : String :=
  v.first_name ++ " " ++ v.last_name

/-- `SuperVillain::set_full_name` (lines 53-60). The Rust code panics when the
whitespace-token count is not 2; the panic is modelled as `none`. Otherwise the
first and second tokens become the first and last name. -/
def SuperVillain.set_full_name {G : Type} (v : SuperVillain G) (name : String) :
    Option (SuperVillain G) :=
  match split_whitespace name with
  | [f, l] => some { v with first_name := f, last_name := l }
  | _ => none

/-- `TryFrom<&str> for SuperVillain` (lines 112-130): fewer than two tokens is
a `ParseError`; otherwise the first two tokens and `..Default::default()`. -/
def SuperVillain.try_from (G : Type) (name : String) :
    Except EvilError (SuperVillain G) :=
  match split_whitespace name with
  | f :: l :: _ =>
      .ok { first_name := f, last_name := l, sidekick := none, shared_key := "" }
  | _ => .error (.ParseError "full_name" "Too few arguments")

/-- `SuperVillain::attack` (lines 62-71), instrumented: returns the number of
`weapon.shoot()` calls. `draw` is the value the code obtains from
`rng.random_range(1..3)` when `intense` holds; the weapon is shot once, then
`draw` further times if `intense`. -/
def SuperVillain.attack_shots (intense : Bool) (draw : Nat) : Nat :=
  1 + (if intense then draw else 0)

/-- The contract of `rand`'s `random_range(1..3)`: a value in the half-open
range `[1, 3)`. -/
def randomRange13 (draw : Nat) : Prop :=
  1 ≤ draw ∧ draw < 3

/-- `SuperVillain::conspire` (lines 78-84), instrumented: returns the new
state together with the number of `sidekick.agree()` queries made. -/
def SuperVillain.conspire {G : Type} (v : SuperVillain G) :
    SuperVillain G × Nat :=
  match v.sidekick with
  | some sk => (if !sk.agree then { v with sidekick := none } else v, 1)
  | none => (v, 0)

/-- Commands a `Henchman` receives (src trait `Henchman`, used at lines 86-102). -/
inductive HenchEvent where
  | buildSecretHq (location : String)
  | fightEnemies
  | doHardThings
  deriving DecidableEq, Repr

/-- `SuperVillain::start_world_domination_stage1` (lines 86-97), instrumented:
returns the trace of henchman commands. With a sidekick attached, its weak
targets are derived from the gadget; a non-empty list makes the henchman build
a secret HQ at `targets[0]`. -/
def SuperVillain.start_world_domination_stage1 {G : Type}
    (v : SuperVillain G) (gadget : G) : List HenchEvent :=
  match v.sidekick with
  | some sk =>
      match sk.get_weak_targets gadget with
      | t :: _ => [.buildSecretHq t]
      | [] => []
  | none => []

/-- `SuperVillain::start_world_domination_stage2` (lines 99-102), instrumented:
the trace of henchman commands, `fight_enemies` then `do_hard_things`. -/
def SuperVillain.start_world_domination_stage2 {G : Type}
    (_ : SuperVillain G) : List HenchEvent :=
  [.fightEnemies, .doHardThings]

/-- `SuperVillain::tell_plans` (lines 104-109), instrumented: returns the
trace of messages relayed to `sidekick.tell`. The cipher capability is the
pure function `cipher : secret → key → ciphertext`. -/
def SuperVillain.tell_plans {G : Type} (v : SuperVillain G)
    (secret : String) (cipher : String → String → String) : List String :=
  match v.sidekick with
  | some _ => [cipher secret v.shared_key]
  | none => []

/-- Modelled from the spec: the listing content split into lines, zero lines
for empty content (the vulnerability-scanner source is not under src/). -/
def linesOf (content : String) : List String :=
  if content.isEmpty then [] else content.splitOn "\n"

/-- Modelled from the spec: `scan_for_weak_locations` (spec §4.7; its source
is not under src/). `openRes` is the outcome of opening the fixed listing
resource (`none` on failure), `readAll` the outcome of reading a handle
(`none` on failure); open or read failure yields absent, otherwise
present(true) exactly when some line ends with the literal suffix `"weak"`
(first match short-circuits), and present(false) otherwise. -/
def scan_for_weak_locations {H : Type} (openRes : Option H)
    (readAll : H → Option String) : Option Bool :=
  match openRes with
  | none => none
  | some h =>
      match readAll h with
      | none => none
      | some content => some ((linesOf content).any (fun line => line.endsWith "weak"))

/-- A well-formed name token: non-empty and free of whitespace characters. -/
def isToken (s : String) : Bool :=
  !s.isEmpty && s.data.all (fun c => !c.isWhitespace)

/-- Reading a whitespace-free chunk only grows the accumulator. -/
theorem splitWsAux_append_of_no_ws (xs : List Char)
    (hxs : ∀ c ∈ xs, c.isWhitespace = false) :
    ∀ (rest acc : List Char),
      splitWsAux (xs ++ rest) acc = splitWsAux rest (xs.reverse ++ acc) := by
  induction xs with
  | nil => intro rest acc; simp
  | cons c cs ih =>
      intro rest acc
      have hc : c.isWhitespace = false := hxs c (List.mem_cons_self c cs)
      have hcs : ∀ x ∈ cs, x.isWhitespace = false :=
        fun x hx => hxs x (List.mem_cons_of_mem c hx)
      simp only [List.cons_append, splitWsAux, hc, if_false, Bool.false_eq_true,
        List.append_eq]
      rw [ih hcs rest (c :: acc)]
      simp

/-- Splitting a string of the shape "A B" with two whitespace-free non-empty
tokens yields exactly those two tokens. -/
theorem split_whitespace_two_tokens (A B : String)
    (hA : isToken A = true) (hB : isToken B = true) :
    split_whitespace (A ++ " " ++ B) = [A, B] := by
  obtain ⟨as⟩ := A
  obtain ⟨bs⟩ := B
  obtain ⟨hAne, hAws⟩ := by simpa [isToken, List.all_eq_true] using hA
  obtain ⟨hBne, hBws⟩ := by simpa [isToken, List.all_eq_true] using hB
  have hAne' : as ≠ [] := by
    intro h
    subst h
    exact absurd hAne (by decide)
  have hBne' : bs ≠ [] := by
    intro h
    subst h
    exact absurd hBne (by decide)
  have hdata : ((⟨as⟩ : String) ++ " " ++ (⟨bs⟩ : String)).data = as ++ (' ' :: bs) := by
    simp [String.data_append]
  have h1 := splitWsAux_append_of_no_ws as
    (fun c hc => by simpa using hAws c hc) (' ' :: bs) []
  have h3 := splitWsAux_append_of_no_ws bs
    (fun c hc => by simpa using hBws c hc) [] []
  simp only [List.append_nil] at h3
  have hsp : (' ').isWhitespace = true := by decide
  have hrevA : as.reverse.isEmpty = false := by
    simp [List.isEmpty_iff, hAne']
  have hrevB : bs.reverse.isEmpty = false := by
    simp [List.isEmpty_iff, hBne']
  simp only [split_whitespace, hdata, h1, h3, splitWsAux, hsp, if_true, hrevA, hrevB,
    Bool.false_eq_true, if_false, List.append_nil, List.reverse_reverse, List.map_cons,
    List.map_nil]

/-- C1: `set_full_name s` fails fatally (modelled `none`) exactly when `s`
splits on whitespace runs into a token count different from 2; with exactly 2
tokens the first token becomes `first_name` and the second `last_name`, all
other fields of the record unchanged. -/
theorem set_full_name_fatal_iff_two_tokens {G : Type} (v : SuperVillain G) (s : String) :
    (v.set_full_name s = none ↔ (split_whitespace s).length ≠ 2) ∧
    v.set_full_name s =
      (if (split_whitespace s).length = 2 then
        some { v with first_name := (split_whitespace s).getD 0 "",
                      last_name := (split_whitespace s).getD 1 "" }
      else none) := by
  unfold SuperVillain.set_full_name
  rcases split_whitespace s with _ | ⟨a, _ | ⟨b, _ | ⟨c, t⟩⟩⟩ <;>
    simp [List.getD]

/-- C2: `try_from s` returns the `ParseError` with purpose "full_name" and
reason "Too few arguments" exactly when `s` splits into fewer than 2
whitespace tokens; with 2 or more tokens it succeeds with the first two
tokens as the names, no sidekick and an empty shared key. -/
theorem try_from_error_iff_few_tokens (G : Type) (s : String) :
    (SuperVillain.try_from G s =
        .error (.ParseError "full_name" "Too few arguments") ↔
      (split_whitespace s).length < 2) ∧
    SuperVillain.try_from G s =
      (if (split_whitespace s).length < 2 then
        .error (.ParseError "full_name" "Too few arguments")
      else .ok { first_name := (split_whitespace s).getD 0 "",
                 last_name := (split_whitespace s).getD 1 "",
                 sidekick := none, shared_key := "" }) := by
  unfold SuperVillain.try_from
  rcases split_whitespace s with _ | ⟨a, _ | ⟨b, t⟩⟩
  · simp [List.getD]
  · simp [List.getD]
  · have hlen : ¬ (t.length + 1 + 1 < 2) := by omega
    simp [List.getD, hlen]

/-- C3: parsing a well-formed two-token string "A B" and asking for the full
name returns the original string. -/
theorem try_from_full_name_roundtrip (G : Type) (A B : String)
    (hA : isToken A = true) (hB : isToken B = true) :
    (SuperVillain.try_from G (A ++ " " ++ B)).map SuperVillain.full_name =
      .ok (A ++ " " ++ B) := by
  unfold SuperVillain.try_from
  rw [split_whitespace_two_tokens A B hA hB]
  simp [SuperVillain.full_name, Except.map]

/-- C3 witness: the round trip at the concrete input "Lex Luthor". -/
theorem try_from_full_name_roundtrip_witness :
    (SuperVillain.try_from Unit ("Lex" ++ " " ++ "Luthor")).map SuperVillain.full_name =
      .ok ("Lex" ++ " " ++ "Luthor") :=
  try_from_full_name_roundtrip Unit "Lex" "Luthor" (by decide) (by decide)

/-- C4: a non-intense attack shoots the weapon exactly once whatever the
random state; an intense attack, for every draw the range request `[1,3)` can
produce, shoots 2 or 3 times, never 1 and never 4 or more. -/
theorem attack_shot_count (draw : Nat) (h : randomRange13 draw) :
    SuperVillain.attack_shots false draw = 1 ∧
    (SuperVillain.attack_shots true draw = 2 ∨ SuperVillain.attack_shots true draw = 3) ∧
    SuperVillain.attack_shots true draw ≠ 1 ∧
    SuperVillain.attack_shots true draw < 4 := by
  obtain ⟨h1, h2⟩ := h
  unfold SuperVillain.attack_shots
  interval_cases draw <;> simp

/-- C4 witness: the attack counts at the concrete draw 1. -/
theorem attack_shot_count_witness :
    SuperVillain.attack_shots false 1 = 1 ∧
    (SuperVillain.attack_shots true 1 = 2 ∨ SuperVillain.attack_shots true 1 = 3) ∧
    SuperVillain.attack_shots true 1 ≠ 1 ∧
    SuperVillain.attack_shots true 1 < 4 :=
  attack_shot_count 1 ⟨by decide, by decide⟩

/-- C5: `conspire` queries the loyalty flag once exactly when a sidekick is
attached (zero queries otherwise); the sidekick afterwards is the old one
filtered by its loyalty answer (kept iff `agree`, so a no-op when absent or
loyal, detached when disloyal); every other field is unchanged. -/
theorem conspire_detaches_iff_disloyal {G : Type} (v : SuperVillain G) :
    (v.conspire).2 = (if v.sidekick.isSome then 1 else 0) ∧
    (v.conspire).1.sidekick = v.sidekick.filter (fun sk => sk.agree) ∧
    (v.conspire).1.first_name = v.first_name ∧
    (v.conspire).1.last_name = v.last_name ∧
    (v.conspire).1.shared_key = v.shared_key := by
  unfold SuperVillain.conspire
  rcases hsk : v.sidekick with _ | sk
  · simp [Option.filter, hsk]
  · rcases ha : sk.agree with _ | _ <;> simp [Option.filter, ha, hsk]

/-- C6: `stage1` issues no henchman command without a sidekick; with one, the
command trace is exactly the first element (if any) of the derived weak-target
list turned into a single build-secret-HQ order, later elements ignored. -/
theorem stage1_builds_at_first_target {G : Type} (v : SuperVillain G) (gadget : G) :
    v.start_world_domination_stage1 gadget =
      (match v.sidekick with
      | some sk => ((sk.get_weak_targets gadget).take 1).map HenchEvent.buildSecretHq
      | none => []) := by
  unfold SuperVillain.start_world_domination_stage1
  rcases v.sidekick with _ | sk
  · rfl
  · rcases htg : sk.get_weak_targets gadget with _ | ⟨t, ts⟩ <;> simp [htg]

/-- C7: `stage2` commands the henchman to fight enemies and to do hard
things, exactly once each and in that strict order, whatever the state of
the villain (sidekick or not). -/
theorem stage2_fights_then_does_hard_things {G : Type} (v : SuperVillain G) :
    (v.start_world_domination_stage2).count HenchEvent.fightEnemies = 1 ∧
    (v.start_world_domination_stage2).count HenchEvent.doHardThings = 1 ∧
    (v.start_world_domination_stage2).indexOf HenchEvent.fightEnemies <
      (v.start_world_domination_stage2).indexOf HenchEvent.doHardThings ∧
    v.start_world_domination_stage2 = [HenchEvent.fightEnemies, HenchEvent.doHardThings] := by
  unfold SuperVillain.start_world_domination_stage2
  refine ⟨by decide, by decide, by decide, rfl⟩

/-- C8: `tell_plans` relays nothing without a sidekick; with one it relays
exactly one message, the ciphertext `cipher secret shared_key`, and every
relayed message equals that ciphertext (the plaintext is never relayed
directly). -/
theorem tell_plans_relays_ciphertext {G : Type} (v : SuperVillain G)
    (secret : String) (cipher : String → String → String) :
    v.tell_plans secret cipher =
      (if v.sidekick.isSome then [cipher secret v.shared_key] else []) ∧
    (v.tell_plans secret cipher).all
      (fun m => m == cipher secret v.shared_key) = true := by
  unfold SuperVillain.tell_plans
  rcases v.sidekick with _ | sk <;> simp

/-- C9: the scan is absent exactly when opening or reading the listing
resource fails; on success it is present(true) exactly when some line of the
content ends with the literal suffix "weak", and present(false) exactly when
no line does (so in particular for empty content). -/
theorem scan_absent_iff_io_failure {H : Type} (openRes : Option H)
    (readAll : H → Option String) :
    (scan_for_weak_locations openRes readAll = none ↔ openRes.bind readAll = none) ∧
    (scan_for_weak_locations openRes readAll = some true ↔
      ∃ content, openRes.bind readAll = some content ∧
        ∃ line ∈ linesOf content, line.endsWith "weak" = true) ∧
    (scan_for_weak_locations openRes readAll = some false ↔
      ∃ content, openRes.bind readAll = some content ∧
        ∀ line ∈ linesOf content, line.endsWith "weak" = false) := by
  unfold scan_for_weak_locations
  rcases openRes with _ | h
  · simp
  · rcases hr : readAll h with _ | content
    · simp [hr]
    · simp [hr, List.any_eq_true, List.any_eq_false]

/-- C10: the production sidekick answers the loyalty check with true on every
call whatever its gadget, so `conspire` on a villain with a production
sidekick attached queries it once and changes nothing: the disloyal branch is
unreachable. -/
theorem prod_sidekick_never_fired {G : Type} (s : ProdSidekick G) (v : SuperVillain G) :
    s.agree = true ∧
    ({ v with sidekick := some s.asSidekick } : SuperVillain G).conspire =
      ({ v with sidekick := some s.asSidekick }, 1) := by
  refine ⟨rfl, ?_⟩
  simp [SuperVillain.conspire, ProdSidekick.asSidekick, Sidekick.agree, ProdSidekick.agree]

end Evil
